import Mathlib

/-!
Verification of the CI failure-triage pipeline (`analyze-failure` script).

We give a shallow embedding of the script: the pure string-processing
functions (`errorLines`, `failureDetails`, `analysisPrompt`, `commentBody`)
are translated directly from the source, and the effectful `main` is
modelled as a function from the environment and an oracle of external-call
results (`World`) to the list of performed external effects plus the process
exit code.
-/

/-- JavaScript-style substring containment (`String.prototype.includes`):
`charsPrefixOf sub l` says `sub` is a prefix of `l` (char lists). -/
def charsPrefixOf : List Char → List Char → Bool
  | [], _ => true
  | _ :: _, [] => false
  | a :: as, b :: bs => a == b && charsPrefixOf as bs

/-- `charsInfixOf sub l` : `sub` occurs contiguously inside `l`. -/
def charsInfixOf (sub : List Char) : List Char → Bool
  | [] => sub.isEmpty
  | b :: bs => charsPrefixOf sub (b :: bs) || charsInfixOf sub bs

/-- `containsStr s sub` models JavaScript `s.includes(sub)`. -/
def containsStr (s sub : String) : Bool :=
  charsInfixOf sub.data s.data

/-- Split a character list at every occurrence of the separator, JavaScript
`String.prototype.split` style: the empty input gives one empty field, and
a trailing separator yields a trailing empty field. -/
def splitOnChar (c : Char) : List Char → List (List Char)
  | [] => [[]]
  | a :: rest =>
    let r := splitOnChar c rest
    if a == c then [] :: r
    else
      match r with
      | [] => [[a]]
      | h :: t => (a :: h) :: t

/-- JavaScript `s.split(sep)` for a one-character separator. -/
def jsSplit (sep : Char) (s : String) : List String :=
  (splitOnChar sep s.data).map String.mk

/-- Source, lines 82-88: filter the log's lines by the five independent
case-sensitive substring checks and keep the last 10 (`.slice(-10)`). -/
def errorLines (logText : String) : List String :=
  let matched := (jsSplit '\n' logText).filter fun line =>
    containsStr line "Error" || containsStr line "FAILED" ||
    containsStr line "error:" || containsStr line "ERROR" ||
    containsStr line "FAILURE"
  matched.drop (matched.length - 10)

/-- The spec's formulation of saliency: the line contains at least one of
the five literal substrings, each checked independently. -/
def isSalientSpec (line : String) : Bool :=
  (["Error", "FAILED", "error:", "ERROR", "FAILURE"].any fun p => containsStr line p)

/-- The spec's formulation of extraction: filter to salient lines in order,
then keep only the final 10 matches. -/
def errorLinesSpec (logText : String) : List String :=
  let matched := (jsSplit '\n' logText).filter isSalientSpec
  matched.drop (matched.length - 10)

/-- A job record as returned by the job-listing call (the fields the
script reads: `id`, `name`, `conclusion`, `started_at`, `completed_at`). -/
structure Job where
  id : Nat
  name : String
  conclusion : String
  started_at : String
  completed_at : String
  deriving DecidableEq

/-- JavaScript string interpolation of a possibly-undefined value:
`undefined` renders as the text "undefined". -/
def jsString : Option String → String
  | none => "undefined"
  | some s => s

/-- JavaScript truthiness of a possibly-undefined string: `undefined` and
the empty string are falsy. -/
def truthy : Option String → Bool
  | none => false
  | some s => !(s == "")

/-- Leading-whitespace skipping for `parseInt`. -/
def skipWhitespace : List Char → List Char
  | [] => []
  | c :: rest => if c.isWhitespace then skipWhitespace rest else c :: rest

/-- Decimal value of a digit list. -/
def digitsVal (l : List Char) : Nat :=
  l.foldl (fun a c => a * 10 + (c.toNat - 48)) 0

/-- JavaScript `parseInt` restricted to base 10: skip leading whitespace,
optional sign, then the longest run of leading decimal digits; `none`
models `NaN`. -/
def jsParseInt (s : String) : Option Int :=
  let t := skipWhitespace s.data
  let (sign, rest) :=
    match t with
    | '-' :: r => ((-1 : Int), r)
    | '+' :: r => ((1 : Int), r)
    | r => ((1 : Int), r)
  let digits := rest.takeWhile Char.isDigit
  if digits.isEmpty then none
  else some (sign * (digitsVal digits : Int))

/-- `const [owner, repo] = GITHUB_REPOSITORY.split('/')`: the first two
components of the split (a missing second component destructures to
`undefined`). -/
def splitRepo (s : String) : String × String :=
  let parts := jsSplit '/' s
  (jsString parts[0]?, jsString parts[1]?)

/-- Source, lines 74-77: the per-job header written for every job whose
log download succeeds. -/
def jobHeader (job : Job) : String :=
  "\n## Job: " ++ job.name ++ "\n" ++
  "Status: " ++ job.conclusion ++ "\n" ++
  "Started: " ++ job.started_at ++ "\n" ++
  "Completed: " ++ job.completed_at ++ "\n"

/-- Source, lines 96-98: the degraded section written when the log
download throws. -/
def degradedSection (job : Job) : String :=
  "\n## Job: " ++ job.name ++ "\n" ++
  "Status: " ++ job.conclusion ++ "\n" ++
  "Error: Could not fetch detailed logs\n"

/-- One iteration of the log-extraction loop (source, lines 65-100): the
fetch result is either a thrown error (`Except.error`) or a response whose
`data` field may be absent; a truthy `data` with salient lines adds the
labelled block. -/
def jobSection (job : Job) (fetch : Except Unit (Option String)) : String :=
  match fetch with
  | .error _ => degradedSection job
  | .ok dat =>
    jobHeader job ++
    match dat with
    | none => ""
    | some logText =>
      if logText == "" then ""
      else
        let errs := errorLines logText
        if errs.isEmpty then ""
        else "\nKey error messages:\n" ++ String.intercalate "\n" errs ++ "\n"

/-- The `failureDetails` accumulator of the loop (source, lines 64-100):
a left fold appending each job's section, given the per-job fetch oracle. -/
def failureDetails (fetchLog : Nat → Except Unit (Option String))
    (failedJobs : List Job) : String :=
  failedJobs.foldl (fun acc job => acc ++ jobSection job (fetchLog job.id)) ""

/-- Source, lines 120-137: the analysis prompt, a fixed template with the
workflow name, run id, repository identity and failure details
interpolated. -/
def analysisPrompt (workflowName workflowRunId owner repo details : String) :
    String :=
  "You are a senior software engineer helping debug failed GitHub Actions. Analyze the following workflow failure and provide helpful insights.\n\n**Workflow Information:**\n- Name: " ++
  workflowName ++ "\n- Run ID: " ++ workflowRunId ++ "\n- Repository: " ++
  owner ++ "/" ++ repo ++ "\n\n**Failure Details:**\n" ++ details ++
  "\n\n**Instructions:**\n1. Identify the root cause of the failure\n2. Provide specific, actionable steps to fix the issue\n3. Suggest preventive measures if applicable\n4. Keep your response concise but helpful\n5. Format your response in markdown for GitHub comments\n\nPlease provide your analysis:"

/-- Source, line 141: the fixed model identifier of the inference call. -/
def bedrockModelId : String :=
  "anthropic.claude-3-sonnet-20240229-v1:0"

/-- Source, lines 162-167: the posted comment body, a fixed markdown
template around the diagnosis. -/
def commentBody (analysis workflowName : String) : String :=
  "## 🤖 Automated Failure Analysis\n\n" ++ analysis ++
  "\n\n---\n*This analysis was generated automatically by Claude via AWS Bedrock when the \"" ++
  workflowName ++ "\" workflow failed.*"

/-- The external calls the script can perform, with the request data each
carries.  `invokeModel` records the model id, `max_tokens`, and the message
list as (role, content) pairs. -/
inductive Effect where
  | getWorkflowRun (runId : String)
  | listJobsForWorkflowRun (runId : String)
  | downloadJobLogs (jobId : Nat)
  | invokeModel (modelId : String) (maxTokens : Nat)
      (messages : List (String × String))
  | createPRComment (owner repo : String) (issueNumber : Option Int)
      (body : String)
  | createCommitComment (owner repo : String) (sha : String) (body : String)
  deriving DecidableEq

def Effect.isInvoke : Effect → Bool
  | .invokeModel _ _ _ => true
  | _ => false

def Effect.isCommentPost : Effect → Bool
  | .createPRComment _ _ _ _ => true
  | .createCommitComment _ _ _ _ => true
  | _ => false

/-- The environment variables the script reads. -/
structure Env where
  workflowRunId : Option String
  workflowName : Option String
  headSha : Option String
  pullRequestNumber : Option String
  githubToken : Option String
  githubRepository : Option String
  awsAccessKeyId : Option String
  awsSecretAccessKey : Option String
  deriving DecidableEq

/-- Oracle for the external calls: what each awaited call would return.
`runMeta` is the workflow-run metadata object, of an arbitrary type `α`
since the script never reads it; `Except.error` models a thrown error. -/
structure World (α : Type) where
  runMeta : Except Unit α
  jobsResult : Except Unit (List Job)
  fetchLog : Nat → Except Unit (Option String)
  modelText : Except Unit String
  postOk : Bool

/-- The observable outcome of one process run: the external effects in
order, and the process exit code. -/
structure RunResult where
  effects : List Effect
  exitCode : Nat
  deriving DecidableEq

/-- Stages from the Bedrock call on (source, lines 102-187), entered once
at least one failed job exists.  Any thrown error reaches the top-level
catch, which exits 1. -/
def afterJobs {α : Type} (env : Env) (w : World α)
    (runId owner repo : String) (failedJobs : List Job) : RunResult :=
  let logEffects := failedJobs.map fun j => Effect.downloadJobLogs j.id
  let details := failureDetails w.fetchLog failedJobs
  let prompt := analysisPrompt (jsString env.workflowName) runId owner repo details
  let inv := Effect.invokeModel bedrockModelId 2000 [("user", prompt)]
  match w.modelText with
  | .error _ => ⟨logEffects ++ [inv], 1⟩
  | .ok text =>
    let body := commentBody text.trim (jsString env.workflowName)
    let post :=
      if truthy env.pullRequestNumber &&
         !(jsString env.pullRequestNumber == "null") then
        Effect.createPRComment owner repo
          (jsParseInt (jsString env.pullRequestNumber)) body
      else
        Effect.createCommitComment owner repo (jsString env.headSha) body
    ⟨logEffects ++ [inv, post], if w.postOk then 0 else 1⟩

/-- Stages after the environment checks (source, lines 40-100): fetch run
metadata, list jobs, filter to failures, and short-circuit when none. -/
def afterEnv {α : Type} (env : Env) (w : World α)
    (runId owner repo : String) : RunResult :=
  match w.runMeta with
  | .error _ => ⟨[.getWorkflowRun runId], 1⟩
  | .ok _ =>
    match w.jobsResult with
    | .error _ => ⟨[.getWorkflowRun runId, .listJobsForWorkflowRun runId], 1⟩
    | .ok jobs =>
      let failedJobs := jobs.filter fun j => j.conclusion == "failure"
      if failedJobs.isEmpty then
        ⟨[.getWorkflowRun runId, .listJobsForWorkflowRun runId], 0⟩
      else
        let rest := afterJobs env w runId owner repo failedJobs
        ⟨[.getWorkflowRun runId, .listJobsForWorkflowRun runId] ++ rest.effects,
         rest.exitCode⟩

/-- The whole `main` (source, lines 6-193): credential check (exit 1),
missing-run-id skip (plain return, exit 0), repository split (a missing
`GITHUB_REPOSITORY` throws and exits 1), then the staged pipeline. -/
def mainModel {α : Type} (env : Env) (w : World α) : RunResult :=
  if !truthy env.awsAccessKeyId || !truthy env.awsSecretAccessKey then ⟨[], 1⟩
  else if !truthy env.workflowRunId then ⟨[], 0⟩
  else
    match env.githubRepository with
    | none => ⟨[], 1⟩
    | some repoStr =>
      afterEnv env w (jsString env.workflowRunId)
        (splitRepo repoStr).1 (splitRepo repoStr).2

theorem errorLines_eq_spec (t : String) : errorLines t = errorLinesSpec t := by
  have h : (fun line => containsStr line "Error" || containsStr line "FAILED" ||
      containsStr line "error:" || containsStr line "ERROR" ||
      containsStr line "FAILURE") = isSalientSpec := by
    funext line
    simp [isSalientSpec, Bool.or_assoc]
  simp only [errorLines, errorLinesSpec, h]

/-- C1 — salient-line extraction agrees with the spec's description: the
kept lines are exactly those containing one of the five literal substrings,
as a suffix (hence in original order) of the filtered sequence, truncated
to the final 10; the two example lines behave as stated. -/
theorem C1_salient_extraction :
    (∀ t : String, errorLines t = errorLinesSpec t) ∧
    (∀ t : String, List.IsSuffix (errorLines t)
        ((jsSplit '\n' t).filter isSalientSpec)) ∧
    (∀ t : String, (errorLines t).length =
        min 10 ((jsSplit '\n' t).filter isSalientSpec).length) ∧
    isSalientSpec "INFO: build error: disk full" = true ∧
    isSalientSpec "INFO: build complete" = false := by
  refine ⟨fun t => errorLines_eq_spec t, ?_, ?_, by decide, by decide⟩
  · intro t
    rw [errorLines_eq_spec]
    exact List.drop_suffix _ _
  · intro t
    rw [errorLines_eq_spec]
    simp only [errorLinesSpec, List.length_drop]
    omega

/-! ### Concrete fixtures used by witnesses and counterexamples -/

def jobBuild : Job :=
  ⟨101, "build", "failure", "2024-01-01T00:00:00Z", "2024-01-01T00:05:00Z"⟩

def jobTest : Job :=
  ⟨102, "test", "failure", "2024-01-01T00:00:00Z", "2024-01-01T00:04:00Z"⟩

def jobOk : Job :=
  ⟨103, "lint", "success", "2024-01-01T00:00:00Z", "2024-01-01T00:01:00Z"⟩

def envStd : Env :=
  ⟨some "555", some "CI", some "abc123", some "42", some "tok",
   some "octo/nova", some "AKIA", some "SECRET"⟩

def envSkip : Env :=
  ⟨none, some "CI", some "abc123", some "42", some "tok",
   some "octo/nova", some "AKIA", some "SECRET"⟩

def envNoCreds : Env :=
  ⟨none, some "CI", some "abc123", some "42", some "tok",
   some "octo/nova", none, some "SECRET"⟩

def worldStd : World Unit :=
  ⟨Except.ok (), Except.ok [jobBuild],
   fun _ => Except.ok (some "Error: module not found"),
   Except.ok " diagnosis ", true⟩

def worldNoFail : World Unit :=
  ⟨Except.ok (), Except.ok [jobOk],
   fun _ => Except.ok (some ""), Except.ok "d", true⟩

/-! ### Claims about the pipeline's control flow -/

/-- C2 — when the job list holds no job with conclusion "failure", the run
stops after the job-listing call: its effects are exactly the metadata
fetch and the job listing (so no inference call and no comment post), and
the exit code is 0. -/
theorem C2_no_failed_jobs_skip {α : Type} (env : Env) (w : World α)
    (repoStr : String) (a : α) (jobs : List Job)
    (hak : truthy env.awsAccessKeyId = true)
    (hsk : truthy env.awsSecretAccessKey = true)
    (hrun : truthy env.workflowRunId = true)
    (hrepo : env.githubRepository = some repoStr)
    (hmeta : w.runMeta = Except.ok a)
    (hjobs : w.jobsResult = Except.ok jobs)
    (hfail : jobs.filter (fun j => j.conclusion == "failure") = []) :
    mainModel env w =
      ⟨[Effect.getWorkflowRun (jsString env.workflowRunId),
        Effect.listJobsForWorkflowRun (jsString env.workflowRunId)], 0⟩ ∧
    ((mainModel env w).effects.all
      fun e => !e.isInvoke && !e.isCommentPost) = true := by
  have h1 : mainModel env w =
      ⟨[Effect.getWorkflowRun (jsString env.workflowRunId),
        Effect.listJobsForWorkflowRun (jsString env.workflowRunId)], 0⟩ := by
    simp [mainModel, afterEnv, hak, hsk, hrun, hrepo, hmeta, hjobs, hfail]
  exact ⟨h1, by rw [h1]; simp [Effect.isInvoke, Effect.isCommentPost]⟩

theorem C2_no_failed_jobs_skip_witness :
    truthy envStd.awsAccessKeyId = true ∧
    truthy envStd.awsSecretAccessKey = true ∧
    truthy envStd.workflowRunId = true ∧
    envStd.githubRepository = some "octo/nova" ∧
    worldNoFail.runMeta = Except.ok () ∧
    worldNoFail.jobsResult = Except.ok [jobOk] ∧
    [jobOk].filter (fun j => j.conclusion == "failure") = [] ∧
    (mainModel envStd worldNoFail =
      ⟨[Effect.getWorkflowRun (jsString envStd.workflowRunId),
        Effect.listJobsForWorkflowRun (jsString envStd.workflowRunId)], 0⟩ ∧
    ((mainModel envStd worldNoFail).effects.all
      fun e => !e.isInvoke && !e.isCommentPost) = true) :=
  ⟨by decide, by decide, by decide, rfl, rfl, rfl, by decide,
   C2_no_failed_jobs_skip envStd worldNoFail "octo/nova" () [jobOk]
     (by decide) (by decide) (by decide) rfl rfl rfl (by decide)⟩

/-- C3 counterexample — the claim quantifies over every invocation with the
run identifier absent, but when the AWS credentials are also missing the
script exits 1 (credential check precedes the run-id check), not 0. -/
theorem C3_counterexample :
    envNoCreds.workflowRunId = none ∧
    (mainModel envNoCreds worldStd).exitCode = 1 ∧
    ¬((mainModel envNoCreds worldStd).exitCode = 0) :=
  ⟨rfl, rfl, by decide⟩

/-- C3 (amended) — provided the AWS credentials are present, an absent run
identifier makes the script log a skip and return normally: no external
call is performed and the exit code is 0. -/
theorem C3_missing_run_id_skip {α : Type} (env : Env) (w : World α)
    (hak : truthy env.awsAccessKeyId = true)
    (hsk : truthy env.awsSecretAccessKey = true)
    (hrun : env.workflowRunId = none) :
    mainModel env w = ⟨[], 0⟩ := by
  have ht : truthy env.workflowRunId = false := by rw [hrun]; rfl
  simp [mainModel, hak, hsk, ht]

theorem C3_missing_run_id_skip_witness :
    truthy envSkip.awsAccessKeyId = true ∧
    truthy envSkip.awsSecretAccessKey = true ∧
    envSkip.workflowRunId = none ∧
    mainModel envSkip worldStd = ⟨[], 0⟩ :=
  ⟨by decide, by decide, rfl,
   C3_missing_run_id_skip envSkip worldStd (by decide) (by decide) rfl⟩

/-- C9 — the run-metadata fetch result never influences the outcome: for
any two metadata values (of any two types) returned by that call, with all
other oracle answers and the environment held equal, the effect trace and
exit code are identical. -/
theorem C9_run_metadata_irrelevant {α β : Type} (env : Env) (a : α) (b : β)
    (jr : Except Unit (List Job)) (fl : Nat → Except Unit (Option String))
    (mt : Except Unit String) (p : Bool) :
    mainModel env (⟨Except.ok a, jr, fl, mt, p⟩ : World α) =
    mainModel env (⟨Except.ok b, jr, fl, mt, p⟩ : World β) := rfl

/-! ### String-containment helper lemmas -/

theorem charsPrefixOf_append_self (p rest : List Char) :
    charsPrefixOf p (p ++ rest) = true := by
  induction p with
  | nil => rfl
  | cons a as ih => simp [charsPrefixOf, ih]

theorem charsPrefixOf_extend (sub l₁ l₂ : List Char)
    (h : charsPrefixOf sub l₁ = true) :
    charsPrefixOf sub (l₁ ++ l₂) = true := by
  induction sub generalizing l₁ with
  | nil => rfl
  | cons a as ih =>
    cases l₁ with
    | nil => simp [charsPrefixOf] at h
    | cons b bs =>
      simp [charsPrefixOf] at h ⊢
      exact ⟨h.1, ih bs (by simp [h.2])⟩

theorem charsInfixOf_nil_sub (l : List Char) : charsInfixOf [] l = true := by
  cases l with
  | nil => rfl
  | cons b bs => simp [charsInfixOf, charsPrefixOf]

theorem charsInfixOf_here (sub rest : List Char) :
    charsInfixOf sub (sub ++ rest) = true := by
  cases sub with
  | nil => exact charsInfixOf_nil_sub rest
  | cons a as =>
    simp only [List.cons_append, charsInfixOf]
    have := charsPrefixOf_append_self (a :: as) rest
    simp only [List.cons_append] at this
    simp [this]

theorem charsInfixOf_append_left (sub l₁ l₂ : List Char)
    (h : charsInfixOf sub l₂ = true) :
    charsInfixOf sub (l₁ ++ l₂) = true := by
  induction l₁ with
  | nil => simpa using h
  | cons b bs ih => simp [charsInfixOf, ih]

theorem charsInfixOf_append_right (sub l₁ l₂ : List Char)
    (h : charsInfixOf sub l₁ = true) :
    charsInfixOf sub (l₁ ++ l₂) = true := by
  induction l₁ with
  | nil =>
    cases sub with
    | nil => exact charsInfixOf_nil_sub l₂
    | cons a as => simp [charsInfixOf, List.isEmpty] at h
  | cons b bs ih =>
    simp only [charsInfixOf] at h
    rcases Bool.or_eq_true_iff.mp h with hp | hi
    · have hext := charsPrefixOf_extend sub (b :: bs) l₂ hp
      simp only [List.cons_append] at hext ⊢
      simp [charsInfixOf, List.append_eq, hext]
    · have hrec := ih hi
      simp only [List.cons_append]
      simp [charsInfixOf, List.append_eq, hrec]

/-- A string of the shape `pre ++ seg ++ post` contains `seg`. -/
theorem containsStr_of_segment (pre seg post : String) :
    containsStr (pre ++ seg ++ post) seg = true := by
  unfold containsStr
  rw [String.data_append, String.data_append, List.append_assoc]
  exact charsInfixOf_append_left _ _ _ (charsInfixOf_here _ _)

/-- Containment is preserved by embedding into a larger string. -/
theorem containsStr_mono (pre b post sub : String)
    (h : containsStr b sub = true) :
    containsStr (pre ++ b ++ post) sub = true := by
  unfold containsStr at h ⊢
  rw [String.data_append, String.data_append, List.append_assoc]
  exact charsInfixOf_append_left _ _ _ (charsInfixOf_append_right _ _ _ h)

/-- Boolean "begins with" at the character level. -/
def strBeginsWith (s p : String) : Bool :=
  charsPrefixOf p.data s.data

/-! ### Concatenation and ordering of the per-job sections -/

/-- Concatenation of a list of strings, in list order. -/
def strConcat : List String → String
  | [] => ""
  | s :: t => s ++ strConcat t

theorem strConcat_append (l₁ l₂ : List String) :
    strConcat (l₁ ++ l₂) = strConcat l₁ ++ strConcat l₂ := by
  induction l₁ with
  | nil => simp [strConcat, String.empty_append]
  | cons s t ih => simp [strConcat, ih, String.append_assoc]

theorem foldl_append_eq_strConcat (g : Job → String) (l : List Job)
    (init : String) :
    l.foldl (fun acc job => acc ++ g job) init = init ++ strConcat (l.map g) := by
  induction l generalizing init with
  | nil => simp [strConcat, String.append_empty]
  | cons j t ih => simp [List.foldl_cons, strConcat, ih, String.append_assoc]

theorem failureDetails_eq_strConcat (f : Nat → Except Unit (Option String))
    (l : List Job) :
    failureDetails f l = strConcat (l.map fun j => jobSection j (f j.id)) := by
  have h := foldl_append_eq_strConcat (fun j => jobSection j (f j.id)) l ""
  simpa [failureDetails, String.empty_append] using h

/-- C7 — the aggregated blob is exactly the concatenation of the per-job
sections in the order of the job list; in particular, restricted to the
retained failure-status jobs, the sections appear in the input job-list
order, whether full or degraded. -/
theorem C7_section_order (f : Nat → Except Unit (Option String))
    (jobs : List Job) :
    failureDetails f jobs =
      strConcat (jobs.map fun j => jobSection j (f j.id)) ∧
    failureDetails f (jobs.filter fun j => j.conclusion == "failure") =
      strConcat ((jobs.filter fun j => j.conclusion == "failure").map
        fun j => jobSection j (f j.id)) :=
  ⟨failureDetails_eq_strConcat f jobs,
   failureDetails_eq_strConcat f (jobs.filter fun j => j.conclusion == "failure")⟩

theorem containsStr_append_left (a t sub : String)
    (h : containsStr t sub = true) : containsStr (a ++ t) sub = true := by
  unfold containsStr at h ⊢
  rw [String.data_append]
  exact charsInfixOf_append_left _ _ _ h

theorem containsStr_append_right (t a sub : String)
    (h : containsStr t sub = true) : containsStr (t ++ a) sub = true := by
  unfold containsStr at h ⊢
  rw [String.data_append]
  exact charsInfixOf_append_right _ _ _ h

theorem containsStr_self_append (seg post : String) :
    containsStr (seg ++ post) seg = true := by
  unfold containsStr
  rw [String.data_append]
  exact charsInfixOf_here _ _

theorem containsStr_of_segment_r (pre seg post : String) :
    containsStr (pre ++ (seg ++ post)) seg = true := by
  have h := containsStr_of_segment pre seg post
  rwa [String.append_assoc] at h

theorem containsStr_self_append3 (a b c x : String) :
    containsStr (a ++ (b ++ (c ++ x))) (a ++ (b ++ c)) = true := by
  have h := containsStr_self_append (a ++ (b ++ c)) x
  simpa [String.append_assoc] using h

/-- C8 — the prompt is the fixed template with the four values
interpolated: the run name, run identifier, repository identity and log
blob each occur verbatim in the output, and any substring of the blob
(such as a log line) occurs verbatim in the output. -/
theorem C8_prompt_interpolation (nm rid ow rp blob : String) :
    containsStr (analysisPrompt nm rid ow rp blob) nm = true ∧
    containsStr (analysisPrompt nm rid ow rp blob) rid = true ∧
    containsStr (analysisPrompt nm rid ow rp blob) (ow ++ "/" ++ rp) = true ∧
    containsStr (analysisPrompt nm rid ow rp blob) blob = true ∧
    (∀ s, containsStr blob s = true →
      containsStr (analysisPrompt nm rid ow rp blob) s = true) := by
  refine ⟨?_, ?_, ?_, ?_, ?_⟩
  · simp only [analysisPrompt, String.append_assoc]
    exact containsStr_of_segment_r _ _ _
  · simp only [analysisPrompt, String.append_assoc]
    refine containsStr_append_left _ _ _ ?_
    refine containsStr_append_left _ _ _ ?_
    refine containsStr_append_left _ _ _ ?_
    exact containsStr_self_append _ _
  · simp only [analysisPrompt, String.append_assoc]
    refine containsStr_append_left _ _ _ ?_
    refine containsStr_append_left _ _ _ ?_
    refine containsStr_append_left _ _ _ ?_
    refine containsStr_append_left _ _ _ ?_
    refine containsStr_append_left _ _ _ ?_
    exact containsStr_self_append3 ow "/" rp _
  · simp only [analysisPrompt]
    exact containsStr_of_segment _ _ _
  · intro s hs
    simp only [analysisPrompt, String.append_assoc]
    refine containsStr_append_left _ _ _ ?_
    refine containsStr_append_left _ _ _ ?_
    refine containsStr_append_left _ _ _ ?_
    refine containsStr_append_left _ _ _ ?_
    refine containsStr_append_left _ _ _ ?_
    refine containsStr_append_left _ _ _ ?_
    refine containsStr_append_left _ _ _ ?_
    refine containsStr_append_left _ _ _ ?_
    refine containsStr_append_left _ _ _ ?_
    exact containsStr_append_right _ _ _ hs

theorem C8_prompt_interpolation_witness :
    containsStr "npm WARN\nError: module not found\ndone" "Error: module not found"
      = true ∧
    containsStr
      (analysisPrompt "CI" "555" "octo" "nova"
        "npm WARN\nError: module not found\ndone")
      "Error: module not found" = true :=
  ⟨by decide,
   (C8_prompt_interpolation "CI" "555" "octo" "nova"
      "npm WARN\nError: module not found\ndone").2.2.2.2
     "Error: module not found" (by decide)⟩

/-- C10 — a successful download with absent or empty log data, or with a
log having no salient lines, yields the header-only section (name,
conclusion, timestamps): no "Key error messages" block and no degraded
note. -/
theorem C10_header_only_sections (j : Job) :
    jobSection j (Except.ok none) = jobHeader j ∧
    jobSection j (Except.ok (some "")) = jobHeader j ∧
    (∀ t, errorLines t = [] → jobSection j (Except.ok (some t)) = jobHeader j) := by
  refine ⟨?_, ?_, ?_⟩
  · simp [jobSection, String.append_empty]
  · simp [jobSection, String.append_empty]
  · intro t ht
    by_cases h : t = ""
    · subst h
      simp [jobSection, String.append_empty]
    · simp [jobSection, h, ht, String.append_empty]

theorem C10_header_only_sections_witness :
    errorLines "all good here" = [] ∧
    jobSection jobOk (Except.ok (some "all good here")) = jobHeader jobOk :=
  ⟨by decide,
   (C10_header_only_sections jobOk).2.2 "all good here" (by decide)⟩

/-! ### Reaching the inference and reporting stages -/

def Effect.bodyOf : Effect → Option String
  | .createPRComment _ _ _ b => some b
  | .createCommitComment _ _ _ b => some b
  | _ => none

theorem strBeginsWith_append (x y p : String)
    (h : strBeginsWith x p = true) : strBeginsWith (x ++ y) p = true := by
  unfold strBeginsWith at h ⊢
  rw [String.data_append]
  exact charsPrefixOf_extend _ _ _ h

theorem filter_comment_map_download (l : List Job) :
    ((l.map fun j => Effect.downloadJobLogs j.id).filter
      fun e => e.isCommentPost) = [] := by
  induction l with
  | nil => rfl
  | cons j t ih => simp [Effect.isCommentPost, ih]

theorem filter_invoke_map_download (l : List Job) :
    ((l.map fun j => Effect.downloadJobLogs j.id).filter
      fun e => e.isInvoke) = [] := by
  induction l with
  | nil => rfl
  | cons j t ih => simp [Effect.isInvoke, ih]

theorem mainModel_reaches {α : Type} (env : Env) (w : World α)
    (repoStr : String) (a : α) (jobs : List Job)
    (hak : truthy env.awsAccessKeyId = true)
    (hsk : truthy env.awsSecretAccessKey = true)
    (hrun : truthy env.workflowRunId = true)
    (hrepo : env.githubRepository = some repoStr)
    (hmeta : w.runMeta = Except.ok a)
    (hjobs : w.jobsResult = Except.ok jobs)
    (hfail : (jobs.filter fun j => j.conclusion == "failure") ≠ []) :
    mainModel env w =
      ⟨[Effect.getWorkflowRun (jsString env.workflowRunId),
        Effect.listJobsForWorkflowRun (jsString env.workflowRunId)] ++
        (afterJobs env w (jsString env.workflowRunId)
          (splitRepo repoStr).1 (splitRepo repoStr).2
          (jobs.filter fun j => j.conclusion == "failure")).effects,
       (afterJobs env w (jsString env.workflowRunId)
          (splitRepo repoStr).1 (splitRepo repoStr).2
          (jobs.filter fun j => j.conclusion == "failure")).exitCode⟩ := by
  have hne : (jobs.filter fun j => j.conclusion == "failure").isEmpty = false := by
    cases hl : jobs.filter fun j => j.conclusion == "failure" with
    | nil => exact absurd hl hfail
    | cons x xs => rfl
  simp [mainModel, afterEnv, hak, hsk, hrun, hrepo, hmeta, hjobs, hne]

/-- C4 — once the Reporter stage is reached, exactly one comment-creation
write occurs: the diagnosis wrapped in the fixed template (beginning with
"## 🤖 Automated Failure Analysis") goes to the supplied review-request
number when it is present and not the literal "null", and otherwise to the
triggering revision hash — never both. -/
theorem C4_reporter_target {α : Type} (env : Env) (w : World α)
    (repoStr : String) (a : α) (jobs : List Job) (text : String)
    (hak : truthy env.awsAccessKeyId = true)
    (hsk : truthy env.awsSecretAccessKey = true)
    (hrun : truthy env.workflowRunId = true)
    (hrepo : env.githubRepository = some repoStr)
    (hmeta : w.runMeta = Except.ok a)
    (hjobs : w.jobsResult = Except.ok jobs)
    (hfail : (jobs.filter fun j => j.conclusion == "failure") ≠ [])
    (hmodel : w.modelText = Except.ok text) :
    ((truthy env.pullRequestNumber &&
        !(jsString env.pullRequestNumber == "null")) = true →
      ((mainModel env w).effects.filter fun e => e.isCommentPost) =
        [Effect.createPRComment (splitRepo repoStr).1 (splitRepo repoStr).2
          (jsParseInt (jsString env.pullRequestNumber))
          (commentBody text.trim (jsString env.workflowName))]) ∧
    ((truthy env.pullRequestNumber &&
        !(jsString env.pullRequestNumber == "null")) = false →
      ((mainModel env w).effects.filter fun e => e.isCommentPost) =
        [Effect.createCommitComment (splitRepo repoStr).1 (splitRepo repoStr).2
          (jsString env.headSha)
          (commentBody text.trim (jsString env.workflowName))]) ∧
    (∀ s n, strBeginsWith (commentBody s n)
      "## 🤖 Automated Failure Analysis" = true) := by
  have hm := mainModel_reaches env w repoStr a jobs hak hsk hrun hrepo hmeta hjobs hfail
  refine ⟨?_, ?_, ?_⟩
  · intro hc
    rw [hm]
    simp [afterJobs, hmodel, hc, List.filter_append,
      filter_comment_map_download, Effect.isCommentPost]
    intro e x hx hconc he
    subst he
    rfl
  · intro hc
    rw [hm]
    simp [afterJobs, hmodel, hc, List.filter_append,
      filter_comment_map_download, Effect.isCommentPost]
    intro e x hx hconc he
    subst he
    rfl
  · intro s n
    unfold commentBody
    refine strBeginsWith_append _ _ _ ?_
    refine strBeginsWith_append _ _ _ ?_
    refine strBeginsWith_append _ _ _ ?_
    refine strBeginsWith_append _ _ _ ?_
    decide

theorem C4_reporter_target_witness :
    truthy envStd.awsAccessKeyId = true ∧
    truthy envStd.awsSecretAccessKey = true ∧
    truthy envStd.workflowRunId = true ∧
    envStd.githubRepository = some "octo/nova" ∧
    worldStd.runMeta = Except.ok () ∧
    worldStd.jobsResult = Except.ok [jobBuild] ∧
    ([jobBuild].filter fun j => j.conclusion == "failure") ≠ [] ∧
    worldStd.modelText = Except.ok " diagnosis " ∧
    (truthy envStd.pullRequestNumber &&
      !(jsString envStd.pullRequestNumber == "null")) = true ∧
    ((mainModel envStd worldStd).effects.filter fun e => e.isCommentPost) =
      [Effect.createPRComment (splitRepo "octo/nova").1 (splitRepo "octo/nova").2
        (jsParseInt (jsString envStd.pullRequestNumber))
        (commentBody " diagnosis ".trim (jsString envStd.workflowName))] :=
  ⟨by decide, by decide, by decide, rfl, rfl, rfl, by decide, rfl, by decide,
   (C4_reporter_target envStd worldStd "octo/nova" () [jobBuild] " diagnosis "
      (by decide) (by decide) (by decide) rfl rfl rfl (by decide) rfl).1
     (by decide)⟩

/-- C5 — a thrown log fetch for one failed job does not abort the run:
that job's section is the degraded form (its name, its conclusion, and the
note "Could not fetch detailed logs"), the note appears in the aggregated
blob, and the pipeline still performs exactly one inference call and one
comment post. -/
theorem C5_degraded_fetch_isolated {α : Type} (env : Env) (w : World α)
    (repoStr : String) (a : α) (jobs : List Job) (j : Job) (text : String)
    (hak : truthy env.awsAccessKeyId = true)
    (hsk : truthy env.awsSecretAccessKey = true)
    (hrun : truthy env.workflowRunId = true)
    (hrepo : env.githubRepository = some repoStr)
    (hmeta : w.runMeta = Except.ok a)
    (hjobs : w.jobsResult = Except.ok jobs)
    (hj : j ∈ jobs.filter fun x => x.conclusion == "failure")
    (hfetch : w.fetchLog j.id = Except.error ())
    (hmodel : w.modelText = Except.ok text) :
    jobSection j (w.fetchLog j.id) = degradedSection j ∧
    containsStr (degradedSection j) "Could not fetch detailed logs" = true ∧
    containsStr
      (failureDetails w.fetchLog (jobs.filter fun x => x.conclusion == "failure"))
      "Could not fetch detailed logs" = true ∧
    ((mainModel env w).effects.filter fun e => e.isInvoke).length = 1 ∧
    ((mainModel env w).effects.filter fun e => e.isCommentPost).length = 1 := by
  have hfail : (jobs.filter fun x => x.conclusion == "failure") ≠ [] :=
    List.ne_nil_of_mem hj
  have hm := mainModel_reaches env w repoStr a jobs hak hsk hrun hrepo hmeta hjobs hfail
  have hdeg : containsStr (degradedSection j) "Could not fetch detailed logs" = true := by
    unfold degradedSection
    exact containsStr_append_left _ _ _ (by decide)
  have hsec : jobSection j (w.fetchLog j.id) = degradedSection j := by
    rw [hfetch]
    rfl
  refine ⟨hsec, hdeg, ?_, ?_, ?_⟩
  · obtain ⟨l₁, l₂, hsplit⟩ := List.append_of_mem hj
    rw [hsplit, failureDetails_eq_strConcat]
    rw [List.map_append, List.map_cons, strConcat_append]
    refine containsStr_append_left _ _ _ ?_
    show containsStr (jobSection j (w.fetchLog j.id) ++ _) _ = true
    rw [hsec]
    exact containsStr_append_right _ _ _ hdeg
  · rw [hm]
    simp only [afterJobs, hmodel, List.filter_append, filter_invoke_map_download]
    cases hc : (truthy env.pullRequestNumber &&
        !(jsString env.pullRequestNumber == "null")) <;>
      simp [hc, Effect.isInvoke]
  · rw [hm]
    simp only [afterJobs, hmodel, List.filter_append, filter_comment_map_download]
    cases hc : (truthy env.pullRequestNumber &&
        !(jsString env.pullRequestNumber == "null")) <;>
      simp [hc, Effect.isCommentPost]

def worldPartial : World Unit :=
  ⟨Except.ok (), Except.ok [jobBuild, jobTest],
   fun i => if i == 102 then Except.error ()
            else Except.ok (some "Error: module not found"),
   Except.ok " diagnosis ", true⟩

theorem C5_degraded_fetch_isolated_witness :
    truthy envStd.awsAccessKeyId = true ∧
    truthy envStd.awsSecretAccessKey = true ∧
    truthy envStd.workflowRunId = true ∧
    envStd.githubRepository = some "octo/nova" ∧
    worldPartial.runMeta = Except.ok () ∧
    worldPartial.jobsResult = Except.ok [jobBuild, jobTest] ∧
    (jobTest ∈ [jobBuild, jobTest].filter fun x => x.conclusion == "failure") ∧
    worldPartial.fetchLog jobTest.id = Except.error () ∧
    worldPartial.modelText = Except.ok " diagnosis " ∧
    (jobSection jobTest (worldPartial.fetchLog jobTest.id) = degradedSection jobTest ∧
     containsStr (degradedSection jobTest) "Could not fetch detailed logs" = true ∧
     containsStr
       (failureDetails worldPartial.fetchLog
         ([jobBuild, jobTest].filter fun x => x.conclusion == "failure"))
       "Could not fetch detailed logs" = true ∧
     ((mainModel envStd worldPartial).effects.filter fun e => e.isInvoke).length = 1 ∧
     ((mainModel envStd worldPartial).effects.filter fun e => e.isCommentPost).length = 1) :=
  ⟨by decide, by decide, by decide, rfl, rfl, rfl, by decide, rfl, rfl,
   C5_degraded_fetch_isolated envStd worldPartial "octo/nova" ()
     [jobBuild, jobTest] jobTest " diagnosis "
     (by decide) (by decide) (by decide) rfl rfl rfl (by decide) rfl rfl⟩

/-- C6 — the Diagnosis Requester sends the built prompt as the sole user
message of a single request with the fixed model identifier and a 2000
max-token limit; on success the posted body wraps the response text
trimmed of surrounding whitespace; a transport or parsing failure of the
exchange exits 1 with no retry and no comment, and a posting failure also
exits 1. -/
theorem C6_inference_contract {α : Type} (env : Env) (w : World α)
    (repoStr : String) (a : α) (jobs : List Job)
    (hak : truthy env.awsAccessKeyId = true)
    (hsk : truthy env.awsSecretAccessKey = true)
    (hrun : truthy env.workflowRunId = true)
    (hrepo : env.githubRepository = some repoStr)
    (hmeta : w.runMeta = Except.ok a)
    (hjobs : w.jobsResult = Except.ok jobs)
    (hfail : (jobs.filter fun j => j.conclusion == "failure") ≠ []) :
    ((mainModel env w).effects.filter fun e => e.isInvoke) =
      [Effect.invokeModel bedrockModelId 2000
        [("user",
          analysisPrompt (jsString env.workflowName) (jsString env.workflowRunId)
            (splitRepo repoStr).1 (splitRepo repoStr).2
            (failureDetails w.fetchLog
              (jobs.filter fun j => j.conclusion == "failure")))]] ∧
    (w.modelText = Except.error () →
      (mainModel env w).exitCode = 1 ∧
      ((mainModel env w).effects.filter fun e => e.isCommentPost) = []) ∧
    (∀ text, w.modelText = Except.ok text → w.postOk = false →
      (mainModel env w).exitCode = 1) ∧
    (∀ text, w.modelText = Except.ok text →
      (((mainModel env w).effects.filter fun e => e.isCommentPost).all
        fun e => e.bodyOf ==
          some (commentBody text.trim (jsString env.workflowName))) = true) := by
  have hm := mainModel_reaches env w repoStr a jobs hak hsk hrun hrepo hmeta hjobs hfail
  refine ⟨?_, ?_, ?_, ?_⟩
  · rw [hm]
    cases hmt : w.modelText with
    | error u =>
      simp only [afterJobs, hmt, List.filter_append, filter_invoke_map_download]
      simp [Effect.isInvoke]
    | ok text =>
      simp only [afterJobs, hmt, List.filter_append, filter_invoke_map_download]
      cases hc : (truthy env.pullRequestNumber &&
          !(jsString env.pullRequestNumber == "null")) <;>
        simp [hc, Effect.isInvoke]
  · intro hmt
    rw [hm]
    constructor
    · simp [afterJobs, hmt]
    · simp only [afterJobs, hmt, List.filter_append, filter_comment_map_download]
      simp [Effect.isCommentPost]
  · intro text hmt hp
    rw [hm]
    simp [afterJobs, hmt, hp]
  · intro text hmt
    rw [hm]
    simp only [afterJobs, hmt, List.filter_append, filter_comment_map_download]
    cases hc : (truthy env.pullRequestNumber &&
        !(jsString env.pullRequestNumber == "null")) <;>
      simp [hc, Effect.isCommentPost, Effect.bodyOf]

theorem C6_inference_contract_witness :
    truthy envStd.awsAccessKeyId = true ∧
    truthy envStd.awsSecretAccessKey = true ∧
    truthy envStd.workflowRunId = true ∧
    envStd.githubRepository = some "octo/nova" ∧
    worldStd.runMeta = Except.ok () ∧
    worldStd.jobsResult = Except.ok [jobBuild] ∧
    ([jobBuild].filter fun j => j.conclusion == "failure") ≠ [] ∧
    ((mainModel envStd worldStd).effects.filter fun e => e.isInvoke) =
      [Effect.invokeModel bedrockModelId 2000
        [("user",
          analysisPrompt (jsString envStd.workflowName)
            (jsString envStd.workflowRunId)
            (splitRepo "octo/nova").1 (splitRepo "octo/nova").2
            (failureDetails worldStd.fetchLog
              ([jobBuild].filter fun j => j.conclusion == "failure")))]] :=
  ⟨by decide, by decide, by decide, rfl, rfl, rfl, by decide,
   (C6_inference_contract envStd worldStd "octo/nova" () [jobBuild]
     (by decide) (by decide) (by decide) rfl rfl rfl (by decide)).1⟩
